import Mathlib

/-!
Verification of the Application Decision Pipeline of the
Saurabh-MLOps/status-neo-assessment repository.

The development shallowly embeds the two core components named by the
spec — the Pipeline Orchestrator (`app/agents/master_agent.py`) and the
Cross-Source Reconciliation Engine (`app/agents/validation_agent.py`) —
together with the base-agent result constructors
(`app/agents/base_agent.py`).  Python dictionaries are modelled as
insertion-ordered association lists, Python floats as rationals, and the
three stage collaborators as explicit functions passed to the
orchestrator (the spec treats them as external collaborators with the
contract `process(input) -> Result{success, data|error, confidence}`).
-/

/-- Model of a Python value as it flows through the pipeline payloads.
`int` and `num` are kept separate because `str()` renders them
differently (`str(5000) = "5000"` but `str(5000.0) = "5000.0"`), and the
reconciliation engine compares values through `str`. -/
inductive PyVal where
  | str : String → PyVal
  | int : Int → PyVal
  | num : Rat → PyVal
  | bool : Bool → PyVal
  | pnone : PyVal
  | list : List PyVal → PyVal
  | dict : List (String × PyVal) → PyVal

/-- A Python `Dict[str, Any]` payload: insertion-ordered association list. -/
abbrev Payload := List (String × PyVal)

/-- `d.get(k)` / `d[k]` lookup on a Python dict. -/
def dictGet {α : Type} (d : List (String × α)) (k : String) : Option α :=
  (d.find? (fun p => p.1 == k)).map (fun p => p.2)

/-- `k in d` membership test on a Python dict. -/
def dictContains {α : Type} (d : List (String × α)) (k : String) : Bool :=
  d.any (fun p => p.1 == k)

/-- `d[k] = v` on a Python dict: replace in place if the key exists,
append otherwise (CPython insertion-order semantics). -/
def dictSet {α : Type} (d : List (String × α)) (k : String) (v : α) :
    List (String × α) :=
  if d.any (fun p => p.1 == k) then
    d.map (fun p => if p.1 == k then (k, v) else p)
  else d ++ [(k, v)]

/-- `d.update(d2)` on a Python dict. -/
def dictUpdate {α : Type} (d d2 : List (String × α)) : List (String × α) :=
  d2.foldl (fun acc p => dictSet acc p.1 p.2) d

/-- Python truthiness of a value (`if v:`). -/
def pyTruthy : PyVal → Bool
  | .str s => s ≠ ""
  | .int n => n ≠ 0
  | .num q => q ≠ 0
  | .bool b => b
  | .pnone => false
  | .list l => !l.isEmpty
  | .dict d => !d.isEmpty

/-- Decimal rendering of a rational, matching `str()` on the Python
floats this system manufactures (all of which are terminating decimals
parsed from document text): `4800 ↦ "4800.0"`, `4800.5 ↦ "4800.5"`.
Non-decimal rationals (which the embedded code never produces) fall back
to a fraction rendering. -/
def ratRepr (q : Rat) : String :=
  if q.den = 1 then toString q.num ++ ".0"
  else
    match (List.range 30).find? (fun k => (q * (10 : Rat) ^ k).den = 1) with
    | some k =>
        let n : Int := (q * (10 : Rat) ^ k).num
        let a : Nat := n.natAbs
        let ip : Nat := a / 10 ^ k
        let fpDigits : String := toString (a % 10 ^ k)
        let pad : String := String.mk (List.replicate (k - fpDigits.length) '0')
        (if n < 0 then "-" else "") ++ toString ip ++ "." ++ pad ++ fpDigits
    | none => toString q.num ++ "/" ++ toString q.den

/-- The single-quote character used by Python `repr` of strings. -/
def pyQuote : String := String.singleton (Char.ofNat 39)

mutual

/-- Python `repr(v)`, used by `str()` inside containers.  Escape
sequences inside strings are not reproduced; container-valued field
observations never arise in this system, so only the scalar cases are
ever exercised by the embedded code. -/
def pyRepr : PyVal → String
  | .str s => pyQuote ++ s ++ pyQuote
  | .int n => toString n
  | .num q => ratRepr q
  | .bool b => if b then "True" else "False"
  | .pnone => "None"
  | .list l => "[" ++ pyReprItems l ++ "]"
  | .dict d => "\x7b" ++ pyReprPairs d ++ "\x7d"

/-- Comma-separated `repr`s of the items of a Python list. -/
def pyReprItems : List PyVal → String
  | [] => ""
  | [x] => pyRepr x
  | x :: xs => pyRepr x ++ ", " ++ pyReprItems xs

/-- Comma-separated `repr`s of the entries of a Python dict. -/
def pyReprPairs : List (String × PyVal) → String
  | [] => ""
  | [(k, v)] => pyQuote ++ k ++ pyQuote ++ ": " ++ pyRepr v
  | (k, v) :: xs =>
      pyQuote ++ k ++ pyQuote ++ ": " ++ pyRepr v ++ ", " ++ pyReprPairs xs

end

/-- Python `str(v)`: identity on strings, the scalar renderings of
`repr` on numbers, booleans and `None`, and `repr` on containers. -/
def pyStr : PyVal → String
  | .str s => s
  | .int n => toString n
  | .num q => ratRepr q
  | .bool b => if b then "True" else "False"
  | .pnone => "None"
  | .list l => pyRepr (.list l)
  | .dict d => pyRepr (.dict d)

/-- `str.lower()` (ASCII), as a structural function on the character
list. -/
def strLower (s : String) : String := String.mk (s.data.map Char.toLower)

/-- Python's `\s` class (ASCII whitespace). -/
def pySpace (c : Char) : Bool :=
  c = ' ' || c = '\t' || c = '\n' || c = '\r' || c = '\x0b' || c = '\x0c'

/-- `str.strip()`: drop Python whitespace from both ends. -/
def strStrip (s : String) : String :=
  String.mk (((s.data.dropWhile pySpace).reverse.dropWhile pySpace).reverse)

/-- `needle in hay` on Python strings: substring containment. -/
def charsPrefix : List Char → List Char → Bool
  | [], _ => true
  | _ :: _, [] => false
  | n :: ns, h :: hs => n == h && charsPrefix ns hs

/-- Substring search scanning every suffix of the haystack. -/
def charsContains : List Char → List Char → Bool
  | [], needle => needle.isEmpty
  | h :: t, needle => charsPrefix needle (h :: t) || charsContains t needle

/-- `str(v).lower().strip()` — the normalization the reconciliation
engine applies before comparing observations
(`validation_agent.py` line 96). -/
def normalizeVal (v : PyVal) : String :=
  strStrip (strLower (pyStr v))

/-! ### Pattern matching

`validation_agent.py` extracts field values from free text with
`re.search` over fixed patterns.  Every pattern used has the shape
"literal, `\s*`, capture group"; the matchers below implement exactly
those shapes with Python's leftmost-then-greedy (backtracking)
semantics. -/


/-- Case-insensitive literal match at the head of the input (the
literal is given lowercased); returns the rest of the input. -/
def matchLitCI : List Char → List Char → Option (List Char)
  | [], s => some s
  | _ :: _, [] => none
  | l :: ls, c :: cs => if c.toLower = l then matchLitCI ls cs else none

/-- Greedy `\s*` followed by `body`, with backtracking: the longest
whitespace prefix whose continuation lets `body` succeed wins. -/
def wsStarThen {α : Type} (body : List Char → Option α) : List Char → Option α
  | [] => body []
  | c :: cs =>
      if pySpace c then (wsStarThen body cs).orElse (fun _ => body (c :: cs))
      else body (c :: cs)

/-- `re.search`: try the matcher at each position, leftmost first. -/
def searchPat {α : Type} (m : List Char → Option α) : List Char → Option α
  | [] => m []
  | c :: cs => (m (c :: cs)).orElse (fun _ => searchPat m cs)

/-- Greedy `(C+)` capture: the maximal non-empty run of class `C`. -/
def clsPlusCapture (C : Char → Bool) (s : List Char) : Option (List Char) :=
  let run := s.takeWhile C
  if run.isEmpty then none else some run

/-- Search for `lit`, `\s*`, then a captured `C+` run
(the shape of the name / address / employment patterns). -/
def searchLitWsCls (lit : String) (C : Char → Bool) (text : String) :
    Option String :=
  (searchPat (fun s => (matchLitCI lit.data s).bind (wsStarThen (clsPlusCapture C)))
    text.data).map String.mk

/-- Exactly `n` digits at the head of the input; returns them and the rest. -/
def exactDigits : Nat → List Char → Option (List Char × List Char)
  | 0, s => some ([], s)
  | _ + 1, [] => none
  | n + 1, c :: cs =>
      if c.isDigit then (exactDigits n cs).map (fun p => (c :: p.1, p.2))
      else none

/-- Slash-or-dash separator of the DOB pattern. -/
def dobSep (c : Char) : Bool := c = '/' || c = '-'

/-- Trailing `\d{2,4}` of the date-of-birth pattern, greedy. -/
def dobYear (s : List Char) : Option (List Char) :=
  ((exactDigits 4 s).map (fun p => p.1)).orElse fun _ =>
    ((exactDigits 3 s).map (fun p => p.1)).orElse fun _ =>
      (exactDigits 2 s).map (fun p => p.1)

/-- Separator and year group after the second day/month group. -/
def dobTail2 (s : List Char) : Option (List Char) :=
  match s with
  | sep :: r => if dobSep sep then (dobYear r).map (fun y => sep :: y) else none
  | [] => none

/-- Separator, middle day/month group and year group after the first
day/month group, greedy with backtracking on the middle `\d{1,2}`. -/
def dobTail1 (s : List Char) : Option (List Char) :=
  match s with
  | sep :: r =>
      if dobSep sep then
        ((exactDigits 2 r).bind (fun p => (dobTail2 p.2).map (fun t => sep :: p.1 ++ t))).orElse
          fun _ =>
            (exactDigits 1 r).bind (fun p => (dobTail2 p.2).map (fun t => sep :: p.1 ++ t))
      else none
  | [] => none

/-- The captured body of the DOB patterns (day, separator, month,
separator, year),
greedy with backtracking on the leading `\d{1,2}`. -/
def dobBody (s : List Char) : Option (List Char) :=
  ((exactDigits 2 s).bind (fun p => (dobTail1 p.2).map (fun t => p.1 ++ t))).orElse
    fun _ => (exactDigits 1 s).bind (fun p => (dobTail1 p.2).map (fun t => p.1 ++ t))

/-- Search for `lit`, `\s*`, then the captured DOB body. -/
def searchLitWsDob (lit : String) (text : String) : Option String :=
  (searchPat (fun s => (matchLitCI lit.data s).bind (wsStarThen dobBody)) text.data).map
    String.mk

/-- Class `[\d,]`. -/
def digitComma (c : Char) : Bool := c.isDigit || c = ','

/-- `\$?([\d,]+\.?\d*)` of the income patterns.  Consuming the optional
dollar sign and the greedy runs is deterministic because nothing after a
run can fail. -/
def incomeBody (s : List Char) : Option (List Char) :=
  let s1 := match s with
            | '$' :: cs => cs
            | _ => s
  let run1 := s1.takeWhile digitComma
  if run1.isEmpty then none
  else
    match s1.drop run1.length with
    | '.' :: r3 => some (run1 ++ '.' :: r3.takeWhile Char.isDigit)
    | _ => some run1

/-- Search for `lit`, `\s*`, then the captured income body. -/
def searchLitWsIncome (lit : String) (text : String) : Option String :=
  (searchPat (fun s => (matchLitCI lit.data s).bind (wsStarThen incomeBody)) text.data).map
    String.mk

/-- Digit list to natural number. -/
def digitsToNat (cs : List Char) : Nat :=
  cs.foldl (fun a c => a * 10 + (c.toNat - '0'.toNat)) 0

/-- Python `float()` on the comma-stripped income capture.  The capture
has the shape `\d*(\.\d*)?` after comma removal; `float` fails exactly
when no digit is present (e.g. `""` or `"."`), which the agent treats as
"continue with the next pattern". -/
def parseFloatPy (cs : List Char) : Option Rat :=
  let ip := cs.takeWhile Char.isDigit
  let rest := cs.drop ip.length
  match rest with
  | [] => if ip.isEmpty then none else some (digitsToNat ip : Rat)
  | '.' :: f =>
      if f.all Char.isDigit then
        if ip.isEmpty && f.isEmpty then none
        else some ((digitsToNat ip : Rat) + (digitsToNat f : Rat) / (10 : Rat) ^ f.length)
      else none
  | _ => none

/-! ### Field extraction from documents (`validation_agent.py` 116-234) -/

/-- The two keys of `extracted_data` the reconciliation engine reads:
`document_types` (tags of the successfully parsed documents) and
`all_text_content` (their raw text blobs, shared across all document
types). -/
structure ExtractedData where
  document_types : List String
  all_text_content : List String

/-- Class `[A-Za-z\s]` of the name patterns. -/
def nameCls (c : Char) : Bool := c.isAlpha || pySpace c

/-- Class `[^\n]` of the address and employment patterns. -/
def notNewline (c : Char) : Bool := c ≠ '\n'

/-- `_extract_name_from_document`: scan every text blob with the three
name patterns, first match wins, result stripped.  The `doc_type`
argument is accepted and ignored exactly as in the source. -/
def extractNameFromDocument (_doc_type : String) (ed : ExtractedData) :
    Option String :=
  (ed.all_text_content.findSome? (fun text =>
    ["name:", "full name:", "applicant:"].findSome? (fun lit =>
      searchLitWsCls lit nameCls text))).map strStrip

/-- `_extract_dob_from_document` (result returned unstripped). -/
def extractDobFromDocument (_doc_type : String) (ed : ExtractedData) :
    Option String :=
  ed.all_text_content.findSome? (fun text =>
    ["date of birth:", "dob:", "birth date:"].findSome? (fun lit =>
      searchLitWsDob lit text))

/-- `_extract_income_from_document`: per pattern, a match whose
comma-stripped capture fails `float()` is skipped (`ValueError` →
`continue`), moving on to the next pattern. -/
def extractIncomeFromDocument (_doc_type : String) (ed : ExtractedData) :
    Option Rat :=
  ed.all_text_content.findSome? (fun text =>
    ["monthly income:", "income:", "salary:"].findSome? (fun lit =>
      (searchLitWsIncome lit text).bind (fun cap =>
        parseFloatPy (cap.data.filter (fun c => c ≠ ',')))))

/-- `_extract_address_from_document`. -/
def extractAddressFromDocument (_doc_type : String) (ed : ExtractedData) :
    Option String :=
  (ed.all_text_content.findSome? (fun text =>
    ["address:", "street address:", "residence:"].findSome? (fun lit =>
      searchLitWsCls lit notNewline text))).map strStrip

/-- `_extract_employment_from_document`. -/
def extractEmploymentFromDocument (_doc_type : String) (ed : ExtractedData) :
    Option String :=
  (ed.all_text_content.findSome? (fun text =>
    ["employer:", "company:", "workplace:"].findSome? (fun lit =>
      searchLitWsCls lit notNewline text))).map strStrip

/-- `_extract_field_from_documents`: find the first entry of
`document_types` containing `doc_type` as a (lowercased) substring; if
one exists, dispatch on the field name to the per-field extractor,
passing the matched tag (which every extractor ignores). -/
def extractFieldFromDocuments (field : String) (doc_type : String)
    (ed : ExtractedData) : Option PyVal :=
  match ed.document_types.find? (fun doc =>
      charsContains (strLower doc).data (strLower doc_type).data) with
  | some doc =>
      if field = "name" then (extractNameFromDocument doc ed).map PyVal.str
      else if field = "date_of_birth" then (extractDobFromDocument doc ed).map PyVal.str
      else if field = "income" then (extractIncomeFromDocument doc ed).map PyVal.num
      else if field = "address" then (extractAddressFromDocument doc ed).map PyVal.str
      else if field = "employment" then (extractEmploymentFromDocument doc ed).map PyVal.str
      else none
  | none => none

/-! ### Cross-source reconciliation (`validation_agent.py` 14-113, 236-285) -/

/-- The per-field source priority tables (`self.field_priorities`). -/
def fieldPriorities : List (String × List String) :=
  [("name", ["application_form", "government_id", "bank_statement"]),
   ("date_of_birth", ["government_id", "application_form", "bank_statement"]),
   ("income", ["bank_statement", "pay_stub", "tax_return", "application_form"]),
   ("address", ["government_id", "utility_bill", "application_form"]),
   ("employment", ["pay_stub", "application_form", "bank_statement"])]

/-- The per-field observation collection of `_validate_information`
(lines 83-92): the declared application value if truthy, then one
extracted observation per document type of the priority list, keeping
only truthy values. -/
def collectFieldValues (field : String) (priority_sources : List String)
    (application_data : Payload) (ed : ExtractedData) : Payload :=
  let field_values : Payload := []
  let field_values :=
    match dictGet application_data field with
    | some app_value =>
        if pyTruthy app_value then dictSet field_values "application_form" app_value
        else field_values
    | none => field_values
  priority_sources.foldl (fun acc doc_type =>
    match extractFieldFromDocuments field doc_type ed with
    | some doc_value =>
        if pyTruthy doc_value then dictSet acc doc_type doc_value else acc
    | none => acc) field_values

/-- `len(set(str(v).lower().strip() for v in field_values.values() if v))`
(line 96): the number of distinct normalized values over the truthy
observations of a field. -/
def uniqueNormalizedCount (field_values : Payload) : Nat :=
  ((field_values.filter (fun p => pyTruthy p.2)).map
    (fun p => normalizeVal p.2)).dedup.length

/-- A materialized field disagreement
(`{'field', 'values', 'priority_sources'}`, lines 98-102). -/
structure Conflict where
  field : String
  values : Payload
  priority_sources : List String

/-- The `ValidationResult` record.  Its class lives in
`app/models/pydantic_models.py`, which is not part of the sources;
the fields are fixed by the constructor call at
`validation_agent.py` lines 110-113 together with spec §3
(ReconciliationResult: `is_valid`, `conflicts`, `resolved_data`,
`confidence_score`). -/
structure ValidationResult where
  is_valid : Bool
  conflicts : List Conflict
  resolved_data : Payload
  confidence_score : Rat

/-- One iteration of the field loop of `_validate_information`
(lines 79-108): collect the observations of the field, emit one
conflict when more than one observation exists and more than one
distinct normalized value exists, and store the full source-to-value
map under the field in the validated data. -/
def validateStep (application_data : Payload) (ed : ExtractedData)
    (acc : List Conflict × Payload) (fp : String × List String) :
    List Conflict × Payload :=
  let field_values := collectFieldValues fp.1 fp.2 application_data ed
  let field_conflicts : List Conflict :=
    if field_values.length > 1 then
      if uniqueNormalizedCount field_values > 1 then
        [⟨fp.1, field_values, fp.2⟩]
      else []
    else []
  (acc.1 ++ field_conflicts, dictSet acc.2 fp.1 (PyVal.dict field_values))

/-- `_validate_information` (lines 73-114). -/
def validateInformation (application_data : Payload) (ed : ExtractedData) :
    ValidationResult :=
  let acc := fieldPriorities.foldl (validateStep application_data ed) ([], [])
  ⟨acc.1.length = 0, acc.1, acc.2, 0⟩

/-- `_resolve_field_conflict` (lines 254-267): first truthy value of a
priority source, else first truthy observed value in map order, else
`None`. -/
def resolveFieldConflict (_field : String) (values : Payload)
    (priority_sources : List String) : PyVal :=
  match priority_sources.find? (fun source =>
      match dictGet values source with
      | some v => pyTruthy v
      | none => false) with
  | some source =>
      match dictGet values source with
      | some v => v
      | none => PyVal.pnone
  | none =>
      match (values.map (fun p => p.2)).find? pyTruthy with
      | some v => v
      | none => PyVal.pnone

/-- `_resolve_conflicts` (lines 236-252). -/
def resolveConflicts (conflicts : List Conflict) : Payload :=
  conflicts.foldl (fun resolved c =>
    dictSet resolved c.field (resolveFieldConflict c.field c.values c.priority_sources)) []

/-- `_calculate_overall_confidence` (lines 269-285). -/
def calcOverallConfidence (vr : ValidationResult) : Rat :=
  if vr.conflicts.isEmpty then 1
  else
    let base_confidence : Rat := 7 / 10
    let conflict_penalty := min ((vr.conflicts.length : Rat) * (1 / 10)) (3 / 10)
    let resolution_bonus : Rat := if !vr.resolved_data.isEmpty then 1 / 10 else 0
    max 0 (min 1 (base_confidence - conflict_penalty + resolution_bonus))

/-- The body of `ValidationAgent.process` after input checking
(lines 46-55): run `_validate_information`, overwrite the conflicted
fields of `resolved_data` with their resolved values, then attach the
overall confidence. -/
def runValidation (application_data : Payload) (ed : ExtractedData) :
    ValidationResult :=
  let vr := validateInformation application_data ed
  let vr :=
    if !vr.conflicts.isEmpty then
      { vr with resolved_data := dictUpdate vr.resolved_data (resolveConflicts vr.conflicts) }
    else vr
  { vr with confidence_score := calcOverallConfidence vr }

/-! ### Stage contract and orchestrator (`base_agent.py`, `master_agent.py`)

Each stage collaborator is a function `Payload → ProcessingResult`; the
orchestrator is parameterized by the stage map exactly as
`MasterAgent.__init__` wires `self.agents`.  A collaborator that raises
is equivalent to one returning an error result, because
`_execute_agent_step` converts every exception into
`create_error_result` before the orchestrator inspects it.  Wall-clock
timestamps (`start_time`, `end_time`, error timestamps) are outside the
embedding and are omitted. -/

/-- `ProcessingResult` (from `app/models/pydantic_models.py`, not part
of the sources; fields fixed by `base_agent.py` lines 48-62 and spec §6:
`Result{success, data|None, error|None, confidence}`). -/
structure ProcessingResult where
  success : Bool
  data : Option Payload
  error : Option String
  confidence_score : Rat

/-- `BaseAgent.create_error_result`. -/
def createErrorResult (error_message : String) : ProcessingResult :=
  ⟨false, none, some error_message, 0⟩

/-- `BaseAgent.create_success_result`. -/
def createSuccessResult (data : Payload) (confidence : Rat) : ProcessingResult :=
  ⟨true, some data, none, confidence⟩

/-- The injected stage map (`self.agents`). -/
abbrev AgentMap := String → Payload → ProcessingResult

/-- The workflow state dict built at `master_agent.py` lines 47-55.
`invocations` is ghost instrumentation (not present in the source): it
records each `(stage, input)` pair at the moment the stage collaborator
is invoked, so that non-invocation properties can be stated. -/
structure WorkflowState where
  workflow_id : String
  current_step : Nat
  total_steps : Nat
  results : List (String × Option Payload)
  errors : List (String × Option String)
  status : String
  invocations : List (String × Payload)

/-- A stored stage payload as a dict value (`None` for an absent data). -/
def pyOfData : Option Payload → PyVal
  | some d => PyVal.dict d
  | none => PyVal.pnone

/-- `self.workflow_steps`. -/
def workflowSteps : List String := ["extraction", "validation", "eligibility"]

/-- `_should_continue_after_error` (lines 201-210): only `extraction`
is critical. -/
def shouldContinueAfterError (step_name : String) (_error : Option String) : Bool :=
  let critical_steps := ["extraction"]
  if critical_steps.contains step_name then false
  else true

/-- `_prepare_step_input` (lines 157-176): copy the working payload,
layer every previous stage result under its own name (or under
`<name>_result` when the name is already a key), and attach the
`workflow_context` snapshot. -/
def prepareStepInput (step_name : String) (input_data : Payload)
    (ws : WorkflowState) : Payload :=
  let step_input := input_data
  let step_input := ws.results.foldl (fun acc pr =>
    if dictContains acc pr.1 then dictSet acc (pr.1 ++ "_result") (pyOfData pr.2)
    else dictSet acc pr.1 (pyOfData pr.2)) step_input
  dictSet step_input "workflow_context" (PyVal.dict
    [("workflow_id", PyVal.str ws.workflow_id),
     ("current_step", PyVal.str step_name),
     ("previous_results", PyVal.dict (ws.results.map (fun pr => (pr.1, pyOfData pr.2))))])

/-- `_prepare_input_for_next_step` (lines 178-199).  The promotion of
`resolved_data` to `validated_application_data` happens only when the
key `resolved_data` is present at the top level of the validation
stage's data.  (`success` results always carry a data dict; on a
success result without data the source would raise at the `in` test.) -/
def prepareInputForNextStep (step_name : String) (step_result : ProcessingResult)
    (current_input : Payload) : Payload :=
  let next_input := dictSet current_input (step_name ++ "_result") (pyOfData step_result.data)
  if step_name == "extraction" && step_result.success then
    dictSet next_input "extracted_data" (pyOfData step_result.data)
  else if step_name == "validation" && step_result.success then
    let next_input := dictSet next_input "validation_result" (pyOfData step_result.data)
    match step_result.data with
    | some d =>
        if dictContains d "resolved_data" then
          dictSet next_input "validated_application_data"
            ((dictGet d "resolved_data").getD PyVal.pnone)
        else next_input
    | none => next_input
  else if step_name == "eligibility" && step_result.success then
    dictSet next_input "eligibility_result" (pyOfData step_result.data)
  else next_input

/-- `_determine_final_status` (lines 212-223). -/
def determineFinalStatus (ws : WorkflowState) : String :=
  if ws.status = "failed" then "failed"
  else if !ws.errors.isEmpty then "completed_with_errors"
  else if ws.results.length = workflowSteps.length then "completed_successfully"
  else "incomplete"

/-- A stored payload value read back as a Python number (`int`, `float`
and `bool` all support `+` with a float).  Any other value would make
the source raise a `TypeError` at the addition; the theorems that touch
this function carry the numeric-confidence contract as a hypothesis. -/
def asNum : PyVal → Option Rat
  | .num q => some q
  | .int n => some (n : Rat)
  | .bool b => some (if b then 1 else 0)
  | _ => none

/-- One iteration of the confidence accumulation of
`_calculate_workflow_confidence` (lines 331-334): when the completed
stage's payload has a `confidence` entry, add it and count the stage.
(A stored `None` payload or non-numeric entry would make the source
raise there; such results never arise from contract-satisfying
stages.) -/
def confStep (a : Rat × Nat) (pr : String × Option Payload) : Rat × Nat :=
  match pr.2 with
  | some result =>
      if dictContains result "confidence" then
        match (dictGet result "confidence").bind asNum with
        | some q => (a.1 + q, a.2 + 1)
        | none => a
      else a
  | none => a

/-- `_calculate_workflow_confidence` (lines 322-345): average the
`confidence` entries of the completed stages' payloads, subtract
`min(0.1 * errors, 0.3)`, clamp to `[0, 1]`; `0` when nothing was
counted. -/
def calculateWorkflowConfidence (ws : WorkflowState) : Rat :=
  if ws.results.isEmpty then 0
  else
    let acc := ws.results.foldl confStep ((0 : Rat), (0 : Nat))
    if acc.2 = 0 then 0
    else
      let error_penalty := min ((ws.errors.length : Rat) * (1 / 10)) (3 / 10)
      let avg_confidence := acc.1 / (acc.2 : Rat)
      max 0 (min 1 (avg_confidence - error_penalty))

/-- `_describe_factor` (lines 278-292). -/
def describeFactor (factor : String) : String :=
  let factor_descriptions : List (String × String) :=
    [("monthly_income", "monthly income level"),
     ("employment_length_months", "employment stability"),
     ("family_size", "family size"),
     ("dependents", "number of dependents"),
     ("income_stability", "income stability"),
     ("employment_stability", "employment stability"),
     ("debt_to_income_ratio", "debt-to-income ratio"),
     ("credit_score", "credit score"),
     ("monthly_balance_consistency", "financial consistency")]
  match dictGet factor_descriptions factor with
  | some d => d
  | none => String.mk (factor.data.map (fun c => if c = '_' then ' ' else c))

/-- `f"{q:.1%}"`: percentage with one decimal.  (Python rounds
half-to-even; `round` here rounds half up.  The difference is
unobservable: this formatting is used only inside the `final_decision`
branch, which theorem `finalDecisionNeverBuilt` shows to be dead.) -/
def qPercent1 (q : Rat) : String :=
  let m : Int := round (q * 1000)
  toString (m / 10) ++ "." ++ toString (m % 10) ++ "%"

/-- `_generate_decision_explanation` (lines 255-276).  `shap_values` is
read as a numeric map per the stage contract (non-numeric importances
would make the source's `sorted` raise). -/
def genDecisionExplanation (decision_data : Payload) : String :=
  let prediction := pyStr ((dictGet decision_data "prediction").getD (PyVal.str "unknown"))
  let confidence := (asNum ((dictGet decision_data "confidence").getD (PyVal.num 0))).getD 0
  let shap_values : Payload :=
    match dictGet decision_data "shap_values" with
    | some (PyVal.dict d) => d
    | _ => []
  let explanation := "Based on the analysis, the application has been " ++ prediction ++
    " with " ++ qPercent1 confidence ++ " confidence. "
  if !shap_values.isEmpty then
    let sorted_factors := (List.mergeSort
      (shap_values.map (fun p => (p.1, (asNum p.2).getD 0)))
      (fun a b => a.2 ≥ b.2)).take 3
    let factor_descriptions := sorted_factors.map (fun f =>
      describeFactor f.1 ++ " (" ++ qPercent1 f.2 ++ ")")
    explanation ++ "The top contributing factors are: " ++
      String.intercalate ", " factor_descriptions ++ "."
  else explanation

/-- `_generate_recommendations` (lines 294-320): static lookup by
decision label. -/
def genRecommendations (decision_data : Payload) : List String :=
  match (dictGet decision_data "prediction").getD (PyVal.str "unknown") with
  | PyVal.str s =>
      if s = "soft_decline" then
        ["Consider improving credit score through timely bill payments",
         "Reduce existing debt to improve debt-to-income ratio",
         "Provide additional employment verification documents",
         "Consider applying for smaller loan amounts initially"]
      else if s = "hard_decline" then
        ["Focus on building credit history",
         "Improve employment stability",
         "Reduce monthly expenses",
         "Consider financial counseling services"]
      else if s = "approve" then
        ["Maintain current financial practices",
         "Continue building positive credit history",
         "Consider setting up automatic payments"]
      else []
  | _ => []

/-- An error record rendered into the aggregated payload
(timestamps omitted). -/
def errorRecordToPy (e : String × Option String) : PyVal :=
  PyVal.dict [("step", PyVal.str e.1),
              ("error", match e.2 with | some s => PyVal.str s | none => PyVal.pnone)]

/-- `_aggregate_workflow_results` (lines 225-253).  The guard on the
`final_decision` branch tests the key `eligibility_result` against
`workflow_state['results']`, whose keys are the *stage names*
(`results[step_name] = step_result.data`, line 74). -/
def aggregateWorkflowResults (ws : WorkflowState) : Payload :=
  let aggregated_result : Payload :=
    [("workflow_id", PyVal.str ws.workflow_id),
     ("status", PyVal.str ws.status),
     ("total_steps", PyVal.int ws.total_steps),
     ("completed_steps", PyVal.int ws.results.length),
     ("errors", PyVal.list (ws.errors.map errorRecordToPy))]
  let aggregated_result := ws.results.foldl (fun acc pr =>
    dictSet acc (pr.1 ++ "_result") (pyOfData pr.2)) aggregated_result
  if dictContains ws.results "eligibility_result" then
    match dictGet ws.results "eligibility_result" with
    | some (some eligibility_data) =>
        if dictContains eligibility_data "decision" then
          match dictGet eligibility_data "decision" with
          | some (PyVal.dict decision_data) =>
              dictSet aggregated_result "final_decision" (PyVal.dict
                [("decision", (dictGet decision_data "prediction").getD PyVal.pnone),
                 ("confidence", (dictGet decision_data "confidence").getD PyVal.pnone),
                 ("explanation", PyVal.str (genDecisionExplanation decision_data)),
                 ("recommendations", PyVal.list
                   ((genRecommendations decision_data).map PyVal.str))])
          | _ => aggregated_result
        else aggregated_result
    | _ => aggregated_result
  else aggregated_result

/-- The stage loop of `MasterAgent.process` (lines 63-103), indexed by
the remaining steps.  On a critical failure the loop breaks with
status `failed`; otherwise each step stores its data (on success) or
appends an error record (on failure) and the next input is derived. -/
def runStepsFrom (agents : AgentMap) :
    Nat → List String → Payload → WorkflowState → WorkflowState
  | _, [], _, ws => ws
  | step_idx, step_name :: rest, input_data, ws =>
    let ws := { ws with current_step := step_idx + 1,
                        status := "processing_" ++ step_name }
    let step_input := prepareStepInput step_name input_data ws
    let ws := { ws with invocations := ws.invocations ++ [(step_name, step_input)] }
    let step_result := agents step_name step_input
    if step_result.success then
      let ws := { ws with results := dictSet ws.results step_name step_result.data }
      runStepsFrom agents (step_idx + 1) rest
        (prepareInputForNextStep step_name step_result input_data) ws
    else
      let ws := { ws with errors := ws.errors ++ [(step_name, step_result.error)] }
      if shouldContinueAfterError step_name step_result.error then
        runStepsFrom agents (step_idx + 1) rest
          (prepareInputForNextStep step_name step_result input_data) ws
      else
        { ws with status := "failed" }

/-- The workflow state as finalized by `MasterAgent.process`
(lines 105-107): run every step, then settle the terminal status. -/
def runWorkflow (agents : AgentMap) (workflow_id : String)
    (input_data : Payload) : WorkflowState :=
  let ws := runStepsFrom agents 0 workflowSteps input_data
    ⟨workflow_id, 0, workflowSteps.length, [], [], "processing", []⟩
  { ws with status := determineFinalStatus ws }

/-- `MasterAgent.process` (lines 39-127): any terminal status in
`['failed', 'completed_with_errors']` is reported to the caller as an
error result; otherwise the aggregated payload is returned as a success
with the workflow confidence. -/
def masterProcess (agents : AgentMap) (workflow_id : String)
    (input_data : Payload) : ProcessingResult :=
  let ws := runWorkflow agents workflow_id input_data
  let final_result := aggregateWorkflowResults ws
  if ws.status = "failed" || ws.status = "completed_with_errors" then
    createErrorResult ("Workflow completed with errors: " ++ ws.status)
  else
    createSuccessResult final_result (calculateWorkflowConfidence ws)

/-! ### The validation stage as a collaborator (`ValidationAgent.process`) -/

/-- Read a list-of-strings entry of the `extracted_data` payload
(`document_types` / `all_text_content`).  Only the prefix of string
items is kept: the source's per-query `try` in
`_extract_field_from_documents` turns the `AttributeError` raised at
the first non-string item into `None`, so items beyond it are never
reachable; a missing or non-list entry likewise yields no matches. -/
def edStringsAt (extracted_data : PyVal) (key : String) : List String :=
  match extracted_data with
  | PyVal.dict d =>
      match dictGet d key with
      | some (PyVal.list l) =>
          (l.takeWhile (fun x => match x with | PyVal.str _ => true | _ => false)).filterMap
            (fun x => match x with | PyVal.str s => some s | _ => none)
      | _ => []
  | _ => []

/-- A conflict dict as serialized into the stage payload. -/
def conflictToPy (c : Conflict) : PyVal :=
  PyVal.dict [("field", PyVal.str c.field),
              ("values", PyVal.dict c.values),
              ("priority_sources", PyVal.list (c.priority_sources.map PyVal.str))]

/-- `validation_result.dict()` — the pydantic serialization.  The field
order follows spec §3 (only the key set is ever consumed). -/
def validationResultToPy (vr : ValidationResult) : PyVal :=
  PyVal.dict [("is_valid", PyVal.bool vr.is_valid),
              ("conflicts", PyVal.list (vr.conflicts.map conflictToPy)),
              ("resolved_data", PyVal.dict vr.resolved_data),
              ("confidence_score", PyVal.num vr.confidence_score)]

/-- `ValidationAgent.process` (lines 33-71) as a stage collaborator:
reject missing/falsy inputs, reconcile, and return the success payload
`{'validation_result': ..., 'is_valid': ..., 'confidence': ...}`.
A non-dict `application_data` makes the source raise at
`application_data.get(field)`, caught by the process-level handler as a
"Validation failed" error result. -/
def validationProcess (input_data : Payload) : ProcessingResult :=
  let application_data := (dictGet input_data "application_data").getD (PyVal.dict [])
  let extracted_data := (dictGet input_data "extracted_data").getD (PyVal.dict [])
  if !pyTruthy application_data || !pyTruthy extracted_data then
    createErrorResult "Missing application or extracted data"
  else
    match application_data with
    | PyVal.dict app =>
        let ed : ExtractedData :=
          ⟨edStringsAt extracted_data "document_types",
           edStringsAt extracted_data "all_text_content"⟩
        let vr := runValidation app ed
        createSuccessResult
          [("validation_result", validationResultToPy vr),
           ("is_valid", PyVal.bool vr.is_valid),
           ("confidence", PyVal.num vr.confidence_score)]
          vr.confidence_score
    | _ => createErrorResult "Validation failed: application data is not a mapping"

/-! ### Association-list (Python dict) lemmas -/

@[simp]
theorem dictGet_nil {α : Type} (k : String) : dictGet ([] : List (String × α)) k = none := rfl

theorem dictGet_cons {α : Type} (p : String × α) (d : List (String × α)) (k : String) :
    dictGet (p :: d) k = if p.1 == k then some p.2 else dictGet d k := by
  simp only [dictGet, List.find?]
  cases h : (p.1 == k) <;> simp [h]

theorem dictGet_map_update {α : Type} (d : List (String × α)) (k : String) (v : α)
    (h : d.any (fun p => p.1 == k) = true) :
    dictGet (d.map (fun p => if p.1 == k then (k, v) else p)) k = some v := by
  induction d with
  | nil => simp at h
  | cons p t ih =>
      simp only [List.map_cons]
      by_cases hp : (p.1 == k) = true
      · simp only [if_pos hp]
        rw [dictGet_cons]
        simp
      · simp only [if_neg hp]
        rw [dictGet_cons, if_neg hp]
        simp only [List.any_cons, hp, Bool.false_or] at h
        exact ih h

theorem dictGet_append_last {α : Type} (d : List (String × α)) (k : String) (v : α)
    (h : d.any (fun p => p.1 == k) = false) :
    dictGet (d ++ [(k, v)]) k = some v := by
  induction d with
  | nil => simp [dictGet_cons]
  | cons p t ih =>
      simp only [List.any_cons, Bool.or_eq_false_iff] at h
      simp only [List.cons_append]
      rw [dictGet_cons, if_neg (by simp [h.1])]
      exact ih h.2

@[simp]
theorem dictGet_dictSet_self {α : Type} (d : List (String × α)) (k : String) (v : α) :
    dictGet (dictSet d k v) k = some v := by
  unfold dictSet
  split
  · exact dictGet_map_update d k v (by assumption)
  · exact dictGet_append_last d k v (by rename_i h; exact Bool.not_eq_true _ ▸ (by simpa using h))

theorem dictGet_map_update_ne {α : Type} (d : List (String × α)) (k k' : String) (v : α)
    (h : k' ≠ k) :
    dictGet (d.map (fun p => if p.1 == k then (k, v) else p)) k' = dictGet d k' := by
  induction d with
  | nil => simp
  | cons p t ih =>
      simp only [List.map_cons]
      by_cases hp : (p.1 == k) = true
      · rw [if_pos hp, dictGet_cons, dictGet_cons]
        have h1 : (k == k') = false := by simpa using fun e => h e.symm
        have h2 : (p.1 == k') = false := by
          have : p.1 = k := by simpa using hp
          simpa [this] using fun e => h e.symm
        rw [if_neg (by simp [h1]), if_neg (by simp [h2])]
        exact ih
      · rw [if_neg hp, dictGet_cons, dictGet_cons]
        by_cases hq : (p.1 == k') = true
        · rw [if_pos hq, if_pos hq]
        · rw [if_neg hq, if_neg hq]
          exact ih

theorem dictGet_append_ne {α : Type} (d : List (String × α)) (k k' : String) (v : α)
    (h : k' ≠ k) :
    dictGet (d ++ [(k, v)]) k' = dictGet d k' := by
  induction d with
  | nil =>
      simp only [List.nil_append, dictGet_cons, dictGet_nil]
      rw [if_neg (by simpa using fun e => h e.symm)]
  | cons p t ih =>
      simp only [List.cons_append]
      rw [dictGet_cons, dictGet_cons]
      by_cases hq : (p.1 == k') = true
      · rw [if_pos hq, if_pos hq]
      · rw [if_neg hq, if_neg hq]
        exact ih

theorem dictGet_dictSet_ne {α : Type} (d : List (String × α)) (k k' : String) (v : α)
    (h : k' ≠ k) :
    dictGet (dictSet d k v) k' = dictGet d k' := by
  unfold dictSet
  split
  · exact dictGet_map_update_ne d k k' v h
  · exact dictGet_append_ne d k k' v h

/-! ### Structure of the reconciliation loop -/

/-- The conflict (if any) the field loop emits for one field. -/
def emitConflict (application_data : Payload) (ed : ExtractedData)
    (fp : String × List String) : Option Conflict :=
  if (collectFieldValues fp.1 fp.2 application_data ed).length > 1 then
    if uniqueNormalizedCount (collectFieldValues fp.1 fp.2 application_data ed) > 1 then
      some ⟨fp.1, collectFieldValues fp.1 fp.2 application_data ed, fp.2⟩
    else none
  else none

theorem validateStep_foldl_fst (application_data : Payload) (ed : ExtractedData)
    (l : List (String × List String)) (cs : List Conflict) (vd : Payload) :
    (l.foldl (validateStep application_data ed) (cs, vd)).1 =
      cs ++ l.filterMap (emitConflict application_data ed) := by
  induction l generalizing cs vd with
  | nil => simp
  | cons x t ih =>
      simp only [List.foldl_cons, List.filterMap_cons, validateStep]
      rw [ih]
      by_cases h1 : 1 < (collectFieldValues x.1 x.2 application_data ed).length
      · by_cases h2 : 1 < uniqueNormalizedCount (collectFieldValues x.1 x.2 application_data ed)
        · simp [emitConflict, h1, h2, List.append_assoc]
        · simp [emitConflict, h1, h2]
      · simp [emitConflict, h1]

theorem validateInformation_conflicts (application_data : Payload) (ed : ExtractedData) :
    (validateInformation application_data ed).conflicts =
      fieldPriorities.filterMap (emitConflict application_data ed) := by
  unfold validateInformation
  simpa using validateStep_foldl_fst application_data ed fieldPriorities [] []

theorem validateStep_foldl_snd (application_data : Payload) (ed : ExtractedData)
    (l : List (String × List String)) (cs : List Conflict) (vd : Payload) :
    (l.foldl (validateStep application_data ed) (cs, vd)).2 =
      l.foldl (fun acc fp =>
        dictSet acc fp.1 (PyVal.dict (collectFieldValues fp.1 fp.2 application_data ed))) vd := by
  induction l generalizing cs vd with
  | nil => simp
  | cons x t ih =>
      simp only [List.foldl_cons, validateStep]
      rw [ih]

theorem validateInformation_resolved (application_data : Payload) (ed : ExtractedData) :
    (validateInformation application_data ed).resolved_data =
      fieldPriorities.foldl (fun acc fp =>
        dictSet acc fp.1 (PyVal.dict (collectFieldValues fp.1 fp.2 application_data ed))) [] := by
  unfold validateInformation
  simpa using validateStep_foldl_snd application_data ed fieldPriorities [] []

/-! ### Claims on the reconciliation engine -/
theorem uniq_lt_length (fv : Payload) (h : 1 < uniqueNormalizedCount fv) :
    1 < fv.length := by
  have h1 : uniqueNormalizedCount fv ≤ fv.length := by
    unfold uniqueNormalizedCount
    calc ((fv.filter (fun p => pyTruthy p.2)).map (fun p => normalizeVal p.2)).dedup.length
        ≤ ((fv.filter (fun p => pyTruthy p.2)).map (fun p => normalizeVal p.2)).length :=
          (List.dedup_sublist _).length_le
      _ = (fv.filter (fun p => pyTruthy p.2)).length := List.length_map _ _
      _ ≤ fv.length := List.length_filter_le _ _
  omega

theorem filter_field_of_ne (application_data : Payload) (ed : ExtractedData)
    (field : String) (l : List (String × List String))
    (h : ∀ fp ∈ l, fp.1 ≠ field) :
    ((l.filterMap (emitConflict application_data ed)).filter
      (fun c => c.field == field)) = [] := by
  induction l with
  | nil => rfl
  | cons x t ih =>
      have hx : x.1 ≠ field := h x (List.mem_cons_self x t)
      have ht : ∀ fp ∈ t, fp.1 ≠ field := fun fp hm => h fp (List.mem_cons_of_mem x hm)
      simp only [List.filterMap_cons]
      cases heq : emitConflict application_data ed x with
      | none => exact ih ht
      | some c =>
          have hc : c.field = x.1 := by
            unfold emitConflict at heq
            split at heq
            · split at heq
              · cases heq; rfl
              · cases heq
            · cases heq
          simp only [List.filter_cons]
          rw [if_neg (by simp [hc, hx])]
          exact ih ht

theorem conflict_count_helper (application_data : Payload) (ed : ExtractedData)
    (field : String) (ps : List String) (pre post : List (String × List String))
    (hpre : ∀ fp ∈ pre, fp.1 ≠ field) (hpost : ∀ fp ∈ post, fp.1 ≠ field)
    (hsplit : fieldPriorities = pre ++ (field, ps) :: post) :
    ((validateInformation application_data ed).conflicts.filter
        (fun c => c.field == field)).length =
      if 1 < uniqueNormalizedCount (collectFieldValues field ps application_data ed)
      then 1 else 0 := by
  rw [validateInformation_conflicts, hsplit, List.filterMap_append, List.filter_append,
    List.length_append, filter_field_of_ne application_data ed field pre hpre,
    List.filterMap_cons]
  cases heq : emitConflict application_data ed (field, ps) with
  | none =>
      rw [filter_field_of_ne application_data ed field post hpost]
      unfold emitConflict at heq
      split at heq
      · split at heq
        · cases heq
        · rename_i hu
          simp only [List.length_nil]
          rw [if_neg (by simpa using hu)]
      · rename_i hl
        simp only [List.length_nil]
        rw [if_neg (fun hu => hl (uniq_lt_length _ hu))]
  | some c =>
      unfold emitConflict at heq
      split at heq
      · split at heq
        · cases heq
          rename_i hl hu
          simp only [List.filter_cons]
          rw [if_pos (by simp), filter_field_of_ne application_data ed field post hpost,
            if_pos (by simpa using hu)]
          rfl
        · cases heq
      · cases heq

/-- **C5.** For every field of one reconciliation run, a ConflictRecord
is produced for that field iff the set of distinct normalized values
(string-converted, case-folded, trimmed, empty values excluded) over its
observations has more than one element; and at most one ConflictRecord
per field is produced. -/
theorem conflict_iff_distinct_normalized (application_data : Payload)
    (ed : ExtractedData) (field : String) (ps : List String)
    (h : (field, ps) ∈ fieldPriorities) :
    ((validateInformation application_data ed).conflicts.filter
        (fun c => c.field == field)).length =
      if 1 < uniqueNormalizedCount (collectFieldValues field ps application_data ed)
      then 1 else 0 := by
  simp only [fieldPriorities, List.mem_cons, List.not_mem_nil, or_false,
    Prod.mk.injEq] at h
  rcases h with ⟨rfl, rfl⟩ | ⟨rfl, rfl⟩ | ⟨rfl, rfl⟩ | ⟨rfl, rfl⟩ | ⟨rfl, rfl⟩
  · exact conflict_count_helper _ _ _ _ [] _ (by decide) (by decide) rfl
  · exact conflict_count_helper _ _ _ _ [("name", ["application_form", "government_id", "bank_statement"])] _ (by decide) (by decide) rfl
  · exact conflict_count_helper _ _ _ _ [("name", ["application_form", "government_id", "bank_statement"]), ("date_of_birth", ["government_id", "application_form", "bank_statement"])] _ (by decide) (by decide) rfl
  · exact conflict_count_helper _ _ _ _ [("name", ["application_form", "government_id", "bank_statement"]), ("date_of_birth", ["government_id", "application_form", "bank_statement"]), ("income", ["bank_statement", "pay_stub", "tax_return", "application_form"])] _ (by decide) (by decide) rfl
  · exact conflict_count_helper _ _ _ _ [("name", ["application_form", "government_id", "bank_statement"]), ("date_of_birth", ["government_id", "application_form", "bank_statement"]), ("income", ["bank_statement", "pay_stub", "tax_return", "application_form"]), ("address", ["government_id", "utility_bill", "application_form"])] _ (by decide) (by decide) rfl

theorem find?_first {α : Type} (p : α → Bool) (pre post : List α) (a : α)
    (hpre : ∀ x ∈ pre, p x = false) (ha : p a = true) :
    List.find? p (pre ++ a :: post) = some a := by
  induction pre with
  | nil => simp [List.find?, ha]
  | cons y t ih =>
      have hy := hpre y (List.mem_cons_self y t)
      simp only [List.cons_append, List.find?, hy]
      exact ih (fun x hx => hpre x (List.mem_cons_of_mem y hx))

/-- **C6.** Conflict resolution walks the priority order and returns the
first present, truthy value; failing that, the first truthy value in
observation-map order; failing that, `None`. -/
theorem resolve_field_conflict_policy (field : String) (values : Payload)
    (ps : List String) :
    (∀ pre s post v, ps = pre ++ s :: post →
      (∀ x ∈ pre, ∀ w, dictGet values x = some w → pyTruthy w = false) →
      dictGet values s = some v → pyTruthy v = true →
      resolveFieldConflict field values ps = v) ∧
    ((∀ s ∈ ps, ∀ w, dictGet values s = some w → pyTruthy w = false) →
      ∀ m1 src v m2, values = m1 ++ (src, v) :: m2 →
      (∀ p ∈ m1, pyTruthy p.2 = false) → pyTruthy v = true →
      resolveFieldConflict field values ps = v) ∧
    ((∀ p ∈ values, pyTruthy p.2 = false) →
      resolveFieldConflict field values ps = PyVal.pnone) := by
  refine ⟨?_, ?_, ?_⟩
  · intro pre s post v hps hpre hs hv
    unfold resolveFieldConflict
    rw [hps, find?_first _ pre post s
      (fun x hx => by
        cases hx2 : dictGet values x with
        | none => simp [hx2]
        | some w => simp [hx2, hpre x hx w hx2])
      (by simp [hs, hv])]
    simp [hs]
  · intro hnone m1 src v m2 hvals hm1 hv
    unfold resolveFieldConflict
    rw [List.find?_eq_none.mpr (fun s hs => by
      cases hx2 : dictGet values s with
      | none => simp [hx2]
      | some w => simp [hx2, hnone s hs w hx2])]
    rw [hvals, List.map_append, List.map_cons]
    rw [find?_first _ (m1.map (fun p => p.2)) (m2.map (fun p => p.2)) v
      (fun x hx => by
        obtain ⟨p, hp, rfl⟩ := List.mem_map.mp hx
        exact hm1 p hp)
      hv]
  · intro hall
    unfold resolveFieldConflict
    rw [List.find?_eq_none.mpr (fun s hs => by
      cases hx2 : dictGet values s with
      | none => simp [hx2]
      | some w => ?_
      have hw : (s, w) ∈ values ∨ w ∈ values.map (fun p => p.2) := by
        right
        unfold dictGet at hx2
        cases hf : values.find? (fun p => p.1 == s) with
        | none => rw [hf] at hx2; cases hx2
        | some q =>
            rw [hf] at hx2
            cases hx2
            exact List.mem_map.mpr ⟨q, List.mem_of_find?_eq_some hf, rfl⟩
      rcases hw with hw | hw
      · simp [hall _ hw]
      · obtain ⟨p, hp, rfl⟩ := List.mem_map.mp hw
        simp [hall p hp])]
    rw [List.find?_eq_none.mpr (fun v hv => by
      obtain ⟨p, hp, rfl⟩ := List.mem_map.mp hv
      simp [hall p hp])]

theorem fst_mem_dictSet {α : Type} (d : List (String × α)) (k : String) (v : α)
    (p : String × α) (h : p ∈ dictSet d k v) : p.1 = k ∨ p ∈ d := by
  unfold dictSet at h
  split at h
  · obtain ⟨q, hq, hfq⟩ := List.mem_map.mp h
    by_cases hqk : (q.1 == k) = true
    · rw [if_pos hqk] at hfq
      left; rw [← hfq]
    · rw [if_neg hqk] at hfq
      right; rw [← hfq]; exact hq
  · rcases List.mem_append.mp h with h | h
    · right; exact h
    · left; rcases List.mem_singleton.mp h with rfl; rfl

theorem fst_mem_resolveConflicts (cs : List Conflict) (p : String × PyVal)
    (h : p ∈ resolveConflicts cs) : ∃ c ∈ cs, p.1 = c.field := by
  unfold resolveConflicts at h
  have main : ∀ (l : List Conflict) (d : Payload), (∀ c ∈ l, c ∈ cs) →
      (∀ q ∈ d, ∃ c ∈ cs, q.1 = c.field) →
      ∀ q ∈ l.foldl (fun resolved c =>
        dictSet resolved c.field (resolveFieldConflict c.field c.values c.priority_sources)) d,
      ∃ c ∈ cs, q.1 = c.field := by
    intro l
    induction l with
    | nil => intro d _ hd q hq; exact hd q hq
    | cons c t ih =>
        intro d hl hd q hq
        simp only [List.foldl_cons] at hq
        refine ih _ (fun c2 hc2 => hl c2 (List.mem_cons_of_mem c hc2)) ?_ q hq
        intro r hr
        rcases fst_mem_dictSet _ _ _ _ hr with hr | hr
        · exact ⟨c, hl c (List.mem_cons_self c t), hr⟩
        · exact hd r hr
  exact main cs [] (fun c hc => hc) (fun q hq => absurd hq (List.not_mem_nil q)) p h

theorem dictGet_dictUpdate_not_mem {α : Type} (d d2 : List (String × α)) (k : String)
    (h : ∀ p ∈ d2, p.1 ≠ k) : dictGet (dictUpdate d d2) k = dictGet d k := by
  induction d2 generalizing d with
  | nil => rfl
  | cons p t ih =>
      unfold dictUpdate
      simp only [List.foldl_cons]
      have h2 : dictGet (dictUpdate (dictSet d p.1 p.2) t) k = dictGet (dictSet d p.1 p.2) k :=
        ih (dictSet d p.1 p.2) (fun q hq => h q (List.mem_cons_of_mem p hq))
      unfold dictUpdate at h2
      rw [h2]
      exact dictGet_dictSet_ne d p.1 k p.2
        (fun e => absurd rfl (e ▸ h p (List.mem_cons_self p t)))

theorem emitConflict_field (ad : Payload) (ed : ExtractedData)
    (fp : String × List String) (c : Conflict)
    (h : emitConflict ad ed fp = some c) : c.field = fp.1 := by
  unfold emitConflict at h
  split at h
  · split at h
    · cases h; rfl
    · cases h
  · cases h

theorem conflicts_field_ne (ad : Payload) (ed : ExtractedData)
    (field : String) (ps : List String)
    (huniq : ∀ fp ∈ fieldPriorities, fp.1 = field → fp = (field, ps))
    (hnoc : emitConflict ad ed (field, ps) = none) :
    ∀ c ∈ (validateInformation ad ed).conflicts, c.field ≠ field := by
  intro c hc heq
  rw [validateInformation_conflicts] at hc
  obtain ⟨fp, hfp, hemit⟩ := List.mem_filterMap.mp hc
  have hcf : c.field = fp.1 := emitConflict_field ad ed fp c hemit
  have hfpe : fp = (field, ps) := huniq fp hfp (by rw [← hcf, heq])
  rw [hfpe, hnoc] at hemit
  cases hemit

theorem runValidation_conflicts (ad : Payload) (ed : ExtractedData) :
    (runValidation ad ed).conflicts = (validateInformation ad ed).conflicts := by
  unfold runValidation
  dsimp only
  split <;> rfl

theorem resolvedData_validateInformation_at (ad : Payload) (ed : ExtractedData)
    (field : String) (ps : List String) (h : (field, ps) ∈ fieldPriorities) :
    dictGet (validateInformation ad ed).resolved_data field =
      some (PyVal.dict (collectFieldValues field ps ad ed)) := by
  rw [validateInformation_resolved]
  simp only [fieldPriorities, List.mem_cons, List.not_mem_nil, or_false,
    Prod.mk.injEq] at h
  rcases h with ⟨rfl, rfl⟩ | ⟨rfl, rfl⟩ | ⟨rfl, rfl⟩ | ⟨rfl, rfl⟩ | ⟨rfl, rfl⟩ <;>
    simp [fieldPriorities, dictSet, dictGet, dictContains, List.find?]

/-- **C9 (amended).** A field with exactly one (truthy) observation gets
no ConflictRecord, and `resolved_data[field]` is the singleton
source-to-value map holding that observation (not the bare value). -/
theorem single_observation_keeps_map (ad : Payload) (ed : ExtractedData)
    (field : String) (ps : List String) (src : String) (v : PyVal)
    (h : (field, ps) ∈ fieldPriorities)
    (hfv : collectFieldValues field ps ad ed = [(src, v)]) :
    dictGet (runValidation ad ed).resolved_data field =
      some (PyVal.dict [(src, v)]) ∧
    (runValidation ad ed).conflicts.filter (fun c => c.field == field) = [] := by
  have huniq : ∀ fp ∈ fieldPriorities, fp.1 = field → fp = (field, ps) := by
    have hcopy := h
    simp only [fieldPriorities, List.mem_cons, List.not_mem_nil, or_false,
      Prod.mk.injEq] at hcopy
    rcases hcopy with ⟨rfl, rfl⟩ | ⟨rfl, rfl⟩ | ⟨rfl, rfl⟩ | ⟨rfl, rfl⟩ | ⟨rfl, rfl⟩ <;>
      decide
  have hnoc : emitConflict ad ed (field, ps) = none := by
    unfold emitConflict
    rw [if_neg (by rw [hfv]; simp)]
  have hne := conflicts_field_ne ad ed field ps huniq hnoc
  constructor
  · unfold runValidation
    dsimp only
    split
    · rename_i hconf
      rw [dictGet_dictUpdate_not_mem _ _ _ (fun p hp => by
        obtain ⟨c, hc, he⟩ := fst_mem_resolveConflicts _ p hp
        rw [he]
        exact hne c hc)]
      rw [resolvedData_validateInformation_at ad ed field ps h, hfv]
    · rw [resolvedData_validateInformation_at ad ed field ps h, hfv]
  · rw [runValidation_conflicts]
    rw [List.filter_eq_nil_iff]
    intro c hc
    simp [hne c hc]

/-- The extracted-document sources named by the priority tables. -/
def docSources : List String :=
  ["government_id", "bank_statement", "pay_stub", "tax_return", "utility_bill"]

theorem extractFieldFromDocuments_agree (field dt1 dt2 : String)
    (ed : ExtractedData) (v1 v2 : PyVal)
    (h1 : extractFieldFromDocuments field dt1 ed = some v1)
    (h2 : extractFieldFromDocuments field dt2 ed = some v2) : v1 = v2 := by
  unfold extractFieldFromDocuments at h1 h2
  cases hf1 : ed.document_types.find? (fun doc =>
      charsContains (strLower doc).data (strLower dt1).data) with
  | none => rw [hf1] at h1; cases h1
  | some doc1 =>
      cases hf2 : ed.document_types.find? (fun doc =>
          charsContains (strLower doc).data (strLower dt2).data) with
      | none => rw [hf2] at h2; cases h2
      | some doc2 =>
          rw [hf1] at h1
          rw [hf2] at h2
          dsimp only at h1 h2
          by_cases e1 : field = "name"
          · rw [if_pos e1] at h1 h2
            rw [show extractNameFromDocument doc1 ed = extractNameFromDocument doc2 ed from rfl] at h1
            rw [h1] at h2
            exact Option.some.inj h2
          · rw [if_neg e1] at h1 h2
            by_cases e2 : field = "date_of_birth"
            · rw [if_pos e2] at h1 h2
              rw [show extractDobFromDocument doc1 ed = extractDobFromDocument doc2 ed from rfl] at h1
              rw [h1] at h2
              exact Option.some.inj h2
            · rw [if_neg e2] at h1 h2
              by_cases e3 : field = "income"
              · rw [if_pos e3] at h1 h2
                rw [show extractIncomeFromDocument doc1 ed = extractIncomeFromDocument doc2 ed from rfl] at h1
                rw [h1] at h2
                exact Option.some.inj h2
              · rw [if_neg e3] at h1 h2
                by_cases e4 : field = "address"
                · rw [if_pos e4] at h1 h2
                  rw [show extractAddressFromDocument doc1 ed = extractAddressFromDocument doc2 ed from rfl] at h1
                  rw [h1] at h2
                  exact Option.some.inj h2
                · rw [if_neg e4] at h1 h2
                  by_cases e5 : field = "employment"
                  · rw [if_pos e5] at h1 h2
                    rw [show extractEmploymentFromDocument doc1 ed = extractEmploymentFromDocument doc2 ed from rfl] at h1
                    rw [h1] at h2
                    exact Option.some.inj h2
                  · rw [if_neg e5] at h1
                    cases h1

theorem collectFieldValues_doc_entry (field : String) (ps : List String)
    (ad : Payload) (ed : ExtractedData) (s : String) (v : PyVal)
    (hget : dictGet (collectFieldValues field ps ad ed) s = some v)
    (hs : s ≠ "application_form") :
    extractFieldFromDocuments field s ed = some v := by
  unfold collectFieldValues at hget
  have base : ∀ s v,
      dictGet (match dictGet ad field with
        | some app_value =>
            if pyTruthy app_value then dictSet ([] : Payload) "application_form" app_value
            else ([] : Payload)
        | none => ([] : Payload)) s = some v →
      s = "application_form" ∨ extractFieldFromDocuments field s ed = some v := by
    intro s v hv
    cases hq : dictGet ad field with
    | none => rw [hq] at hv; dsimp only at hv; cases hv
    | some app_value =>
        rw [hq] at hv
        dsimp only at hv
        by_cases ht : pyTruthy app_value = true
        · rw [if_pos ht] at hv
          have hset : dictSet ([] : Payload) "application_form" app_value =
              [("application_form", app_value)] := rfl
          rw [hset, dictGet_cons] at hv
          by_cases he : ("application_form" == s) = true
          · left; exact ((by simpa using he : "application_form" = s)).symm
          · rw [if_neg he] at hv; cases hv
        · rw [if_neg ht] at hv; cases hv
  have main : ∀ (l : List String) (acc : Payload),
      (∀ s v, dictGet acc s = some v →
        s = "application_form" ∨ extractFieldFromDocuments field s ed = some v) →
      ∀ s v, dictGet (l.foldl (fun acc doc_type =>
          match extractFieldFromDocuments field doc_type ed with
          | some doc_value =>
              if pyTruthy doc_value then dictSet acc doc_type doc_value else acc
          | none => acc) acc) s = some v →
      s = "application_form" ∨ extractFieldFromDocuments field s ed = some v := by
    intro l
    induction l with
    | nil => intro acc hacc s v hv; exact hacc s v hv
    | cons dt t ih =>
        intro acc hacc s v hv
        simp only [List.foldl_cons] at hv
        refine ih _ ?_ s v hv
        intro s2 v2 hv2
        cases hx : extractFieldFromDocuments field dt ed with
        | none => rw [hx] at hv2; dsimp only at hv2; exact hacc s2 v2 hv2
        | some dv =>
            rw [hx] at hv2
            dsimp only at hv2
            by_cases ht : pyTruthy dv = true
            · rw [if_pos ht] at hv2
              by_cases he : s2 = dt
              · subst he
                rw [dictGet_dictSet_self] at hv2
                right
                rw [hx]
                cases hv2
                rfl
              · rw [dictGet_dictSet_ne _ _ _ _ he] at hv2
                exact hacc s2 v2 hv2
            · rw [if_neg ht] at hv2
              exact hacc s2 v2 hv2
  dsimp only at hget
  rcases main ps _ base s v hget with h | h
  · exact absurd h hs
  · exact h

theorem emitConflict_values (ad : Payload) (ed : ExtractedData)
    (fp : String × List String) (c : Conflict)
    (h : emitConflict ad ed fp = some c) :
    c.values = collectFieldValues fp.1 fp.2 ad ed := by
  unfold emitConflict at h
  split at h
  · split at h
    · cases h; rfl
    · cases h
  · cases h

/-- **C10.** Inside any ConflictRecord, any two observations attributed
to extracted-document sources carry the same value: extraction scans
the shared `all_text_content` and ignores which document type is being
queried, so a conflict can only oppose the application form to the
(unique) extracted value. -/
theorem conflict_doc_sources_agree (ad : Payload) (ed : ExtractedData)
    (c : Conflict) (hc : c ∈ (validateInformation ad ed).conflicts)
    (s1 s2 : String) (v1 v2 : PyVal)
    (h1 : s1 ∈ docSources) (h2 : s2 ∈ docSources)
    (g1 : dictGet c.values s1 = some v1) (g2 : dictGet c.values s2 = some v2) :
    v1 = v2 := by
  have hne : ∀ s ∈ docSources, s ≠ "application_form" := by decide
  rw [validateInformation_conflicts] at hc
  obtain ⟨fp, _, hemit⟩ := List.mem_filterMap.mp hc
  have hv := emitConflict_values ad ed fp c hemit
  rw [hv] at g1 g2
  exact extractFieldFromDocuments_agree fp.1 s1 s2 ed v1 v2
    (collectFieldValues_doc_entry fp.1 fp.2 ad ed s1 v1 g1 (hne s1 h1))
    (collectFieldValues_doc_entry fp.1 fp.2 ad ed s2 v2 g2 (hne s2 h2))

/-! ### Claims on the orchestrator -/

theorem runWorkflow_status_mem (agents : AgentMap) (wfid : String) (input : Payload) :
    (runWorkflow agents wfid input).status = "failed" ∨
    (runWorkflow agents wfid input).status = "completed_with_errors" ∨
    (runWorkflow agents wfid input).status = "completed_successfully" := by
  unfold runWorkflow
  simp only [workflowSteps, runStepsFrom]
  repeat' split
  all_goals
    simp [determineFinalStatus, shouldContinueAfterError, dictSet, dictContains,
      workflowSteps]

theorem masterProcess_error_of_status (agents : AgentMap) (wfid : String)
    (input : Payload)
    (h : (runWorkflow agents wfid input).status = "failed" ∨
      (runWorkflow agents wfid input).status = "completed_with_errors") :
    (masterProcess agents wfid input).success = false := by
  unfold masterProcess
  dsimp only
  rcases h with h | h <;> simp [h, createErrorResult]

theorem masterProcess_confidence_of_success (agents : AgentMap) (wfid : String)
    (input : Payload) (h : (masterProcess agents wfid input).success = true) :
    (masterProcess agents wfid input).confidence_score =
      calculateWorkflowConfidence (runWorkflow agents wfid input) := by
  unfold masterProcess at h ⊢
  dsimp only at h ⊢
  split at h
  · cases h
  · rename_i hcond
    rw [if_neg hcond]
    rfl

/-- **C1.** If the extraction stage fails (an error record for
`extraction` exists — a raising collaborator is converted to an error
result by `_execute_agent_step` before this point), the terminal status
is `failed`, no stage result exists for `validation` or `eligibility`,
and `extraction` is the only stage ever invoked. -/
theorem extraction_failure_fails_pipeline (agents : AgentMap) (wfid : String)
    (input : Payload)
    (hf : ∃ e, ("extraction", e) ∈ (runWorkflow agents wfid input).errors) :
    (runWorkflow agents wfid input).status = "failed" ∧
    dictContains (runWorkflow agents wfid input).results "validation" = false ∧
    dictContains (runWorkflow agents wfid input).results "eligibility" = false ∧
    (runWorkflow agents wfid input).invocations.map Prod.fst = ["extraction"] := by
  obtain ⟨e, he⟩ := hf
  revert he
  unfold runWorkflow
  simp only [workflowSteps, runStepsFrom]
  repeat' split
  all_goals
    intro he
    simp_all [shouldContinueAfterError, determineFinalStatus, dictContains, dictSet]

def failAgents : AgentMap := fun _ _ => createErrorResult "boom"

/-- Witness for C1 at a concrete failing extraction collaborator. -/
theorem extraction_failure_fails_pipeline_witness :
    (runWorkflow failAgents "wf-w1" []).status = "failed" ∧
    dictContains (runWorkflow failAgents "wf-w1" []).results "validation" = false ∧
    dictContains (runWorkflow failAgents "wf-w1" []).results "eligibility" = false ∧
    (runWorkflow failAgents "wf-w1" []).invocations.map Prod.fst = ["extraction"] :=
  extraction_failure_fails_pipeline failAgents "wf-w1" [] ⟨some "boom", by decide⟩

/-- **C3.** If extraction succeeded (a stage result exists for it) and
some error was recorded — necessarily by a non-critical stage — then
every stage was invoked, the terminal status is
`completed_with_errors`, and `MasterAgent.process` reports the run to
its invoker as an error result. -/
theorem noncritical_failure_continues (agents : AgentMap) (wfid : String)
    (input : Payload)
    (hx : dictContains (runWorkflow agents wfid input).results "extraction" = true)
    (he : (runWorkflow agents wfid input).errors ≠ []) :
    (runWorkflow agents wfid input).invocations.map Prod.fst =
      ["extraction", "validation", "eligibility"] ∧
    (runWorkflow agents wfid input).status = "completed_with_errors" ∧
    (masterProcess agents wfid input).success = false := by
  have hmain : (runWorkflow agents wfid input).invocations.map Prod.fst =
      ["extraction", "validation", "eligibility"] ∧
      (runWorkflow agents wfid input).status = "completed_with_errors" := by
    revert hx he
    unfold runWorkflow
    simp only [workflowSteps, runStepsFrom]
    repeat' split
    all_goals intro hx he
    all_goals
      simp_all [shouldContinueAfterError, determineFinalStatus, dictSet, dictContains,
        workflowSteps]
  exact ⟨hmain.1, hmain.2, masterProcess_error_of_status agents wfid input (Or.inr hmain.2)⟩

def c3Agents : AgentMap := fun step_name _ =>
  if step_name == "validation" then createErrorResult "validation exploded"
  else createSuccessResult [("confidence", PyVal.num (9 / 10))] (9 / 10)

/-- Witness for C3 at a concrete failing validation collaborator. -/
theorem noncritical_failure_continues_witness :
    (runWorkflow c3Agents "wf-w3" []).invocations.map Prod.fst =
      ["extraction", "validation", "eligibility"] ∧
    (runWorkflow c3Agents "wf-w3" []).status = "completed_with_errors" ∧
    (masterProcess c3Agents "wf-w3" []).success = false :=
  noncritical_failure_continues c3Agents "wf-w3" [] (by decide) (by decide)

/-- **C4.** Any terminal status other than `completed_successfully`
(`failed`, `completed_with_errors` — and `incomplete`, which no run
ever produces) makes `MasterAgent.process` return an error result. -/
theorem nonsuccess_reported_as_failure (agents : AgentMap) (wfid : String)
    (input : Payload)
    (h : (runWorkflow agents wfid input).status ≠ "completed_successfully") :
    (masterProcess agents wfid input).success = false := by
  rcases runWorkflow_status_mem agents wfid input with hs | hs | hs
  · exact masterProcess_error_of_status agents wfid input (Or.inl hs)
  · exact masterProcess_error_of_status agents wfid input (Or.inr hs)
  · exact absurd hs h

/-- Witness for C4 at a concrete failing extraction collaborator. -/
theorem nonsuccess_reported_as_failure_witness :
    (masterProcess failAgents "wf-w4" []).success = false := by
  have h : (runWorkflow failAgents "wf-w4" []).status ≠ "completed_successfully" := by
    decide
  exact nonsuccess_reported_as_failure failAgents "wf-w4" [] h

/-- The confidences reported by the completed stages: for each stored
stage payload, its `confidence` entry read as a number. -/
def reportedConfidences (results : List (String × Option Payload)) : List Rat :=
  results.filterMap (fun pr =>
    match pr.2 with
    | some result =>
        if dictContains result "confidence" then (dictGet result "confidence").bind asNum
        else none
    | none => none)

theorem confStep_foldl (l : List (String × Option Payload)) (a : Rat) (n : Nat) :
    l.foldl confStep (a, n) =
      (a + (reportedConfidences l).sum, n + (reportedConfidences l).length) := by
  induction l generalizing a n with
  | nil => simp [reportedConfidences]
  | cons pr t ih =>
      simp only [List.foldl_cons, reportedConfidences, List.filterMap_cons] at ih ⊢
      cases hd : pr.2 with
      | none =>
          simp only [confStep, hd]
          exact ih a n
      | some result =>
          by_cases hc : dictContains result "confidence" = true
          · cases hv : (dictGet result "confidence").bind asNum with
            | none =>
                simp only [confStep, hd, hc, if_true]
                simp only [hv]
                exact ih a n
            | some q =>
                simp only [confStep, hd, hc, if_true]
                simp only [hv]
                rw [ih]
                have hsum : ∀ (x : Rat) (xs : List Rat), (x :: xs).sum = x + xs.sum :=
                  fun x xs => List.sum_cons
                rw [hsum, List.length_cons]
                refine Prod.ext ?_ ?_ <;> dsimp only
                · ring
                · omega
          · simp only [confStep, hd, Bool.not_eq_true] at hc ⊢
            simp only [hc]
            simp only [Bool.false_eq_true, if_false]
            exact ih a n

theorem calculateWorkflowConfidence_formula (ws : WorkflowState) :
    calculateWorkflowConfidence ws =
      if reportedConfidences ws.results = [] then 0
      else
        max 0 (min 1 ((reportedConfidences ws.results).sum /
          ((reportedConfidences ws.results).length : Rat) -
          min ((ws.errors.length : Rat) * (1 / 10)) (3 / 10))) := by
  unfold calculateWorkflowConfidence
  split
  · rename_i hemp
    rw [if_pos]
    rw [List.isEmpty_iff] at hemp
    rw [hemp]
    rfl
  · rw [confStep_foldl]
    dsimp only
    by_cases hz : (reportedConfidences ws.results).length = 0
    · rw [if_pos (by omega), if_pos (List.length_eq_zero.mp hz)]
    · rw [if_neg (by omega), if_neg (fun he => hz (by rw [he]; rfl))]
      rw [Nat.zero_add, Rat.zero_add]

/-- **C7.** On success, the returned confidence is the arithmetic mean
of the confidences reported by the completed stages, minus
`min(0.1 * recorded errors, 0.3)`, clamped to `[0, 1]`; with no
reported confidence (in particular with zero completed stages) it
is `0`. -/
theorem success_confidence_formula (agents : AgentMap) (wfid : String)
    (input : Payload) (h : (masterProcess agents wfid input).success = true) :
    (masterProcess agents wfid input).confidence_score =
      if reportedConfidences (runWorkflow agents wfid input).results = [] then 0
      else
        max 0 (min 1
          ((reportedConfidences (runWorkflow agents wfid input).results).sum /
            ((reportedConfidences (runWorkflow agents wfid input).results).length : Rat) -
          min (((runWorkflow agents wfid input).errors.length : Rat) * (1 / 10)) (3 / 10))) := by
  rw [masterProcess_confidence_of_success agents wfid input h]
  exact calculateWorkflowConfidence_formula (runWorkflow agents wfid input)

def allSuccessAgents : AgentMap := fun step_name _ =>
  if step_name == "eligibility" then
    createSuccessResult [("decision", PyVal.dict [("prediction", PyVal.str "approve")])] (8 / 10)
  else createSuccessResult [("confidence", PyVal.num (9 / 10))] (9 / 10)

/-- Witness for C7 at a concrete fully successful run. -/
theorem success_confidence_formula_witness :
    (masterProcess allSuccessAgents "wf-w7" []).confidence_score =
      if reportedConfidences (runWorkflow allSuccessAgents "wf-w7" []).results = [] then 0
      else
        max 0 (min 1
          ((reportedConfidences (runWorkflow allSuccessAgents "wf-w7" []).results).sum /
            ((reportedConfidences (runWorkflow allSuccessAgents "wf-w7" []).results).length : Rat) -
          min (((runWorkflow allSuccessAgents "wf-w7" []).errors.length : Rat) * (1 / 10)) (3 / 10))) := by
  have h : (masterProcess allSuccessAgents "wf-w7" []).success = true := by decide
  exact success_confidence_formula allSuccessAgents "wf-w7" [] h

/-! ### Claims falsified by the code (dead `final_decision` /
`validated_application_data` paths) -/

def approveDecision : Payload :=
  [("prediction", PyVal.str "approve"), ("confidence", PyVal.num (8 / 10)),
   ("shap_values", PyVal.dict [])]

def c2Agents : AgentMap := fun step_name _ =>
  if step_name == "eligibility" then
    createSuccessResult
      [("decision", PyVal.dict approveDecision),
       ("model_version", PyVal.str "1.0.0"),
       ("features_used", PyVal.list [])] (8 / 10)
  else createSuccessResult [("confidence", PyVal.num (9 / 10))] (9 / 10)

/-- **C2 (falsified).** In a fully successful concrete run whose
eligibility data contains a `decision`, the aggregated payload carries
no `final_decision`: the guard at `master_agent.py` line 242 looks up
the key `eligibility_result` in `workflow_state['results']`, whose keys
are the stage names. -/
theorem final_decision_never_built :
    (masterProcess c2Agents "wf-c2" []).success = true ∧
    ((dictGet (runWorkflow c2Agents "wf-c2" []).results "eligibility").map
      (fun od => od.map (fun d => dictContains d "decision"))) = some (some true) ∧
    ((masterProcess c2Agents "wf-c2" []).data.map
      (fun d => dictContains d "final_decision")) = some false := by
  exact ⟨rfl, rfl, rfl⟩

def c8ExtractionData : Payload :=
  [("document_types", PyVal.list [PyVal.str "bank_statement"]),
   ("all_text_content", PyVal.list [PyVal.str "Monthly Income: $4,800"]),
   ("confidence", PyVal.num (9 / 10))]

def c8Agents : AgentMap := fun step_name input =>
  if step_name == "validation" then validationProcess input
  else if step_name == "extraction" then createSuccessResult c8ExtractionData (9 / 10)
  else createSuccessResult [("decision", PyVal.dict approveDecision)] (8 / 10)

def c8Input : Payload :=
  [("application_data", PyVal.dict [("income", PyVal.int 5000)])]

/-- Does a validation stage payload carry a non-empty `resolved_data`
(nested inside `validation_result`, where `ValidationAgent` puts it)? -/
def hasNonemptyResolvedData (d : Payload) : Bool :=
  match dictGet d "validation_result" with
  | some (PyVal.dict vrd) =>
      match dictGet vrd "resolved_data" with
      | some (PyVal.dict rd) => !rd.isEmpty
      | _ => false
  | _ => false

/-- **C8 (falsified).** In a concrete run with the real validation
stage, validation succeeds and its reconciliation produced a non-empty
`resolved_data`, yet no stage — in particular not eligibility — is ever
invoked with a `validated_application_data` key: the orchestrator looks
for `resolved_data` at the top level of the stage data
(`master_agent.py` line 193), but `ValidationAgent.process` nests it
inside `validation_result` (`validation_agent.py` lines 63-67). -/
theorem validated_application_data_never_promoted :
    ((dictGet (runWorkflow c8Agents "wf-c8" c8Input).results "validation").map
      (fun od => od.map (fun d => hasNonemptyResolvedData d))) = some (some true) ∧
    ((runWorkflow c8Agents "wf-c8" c8Input).invocations.map
      (fun inv => (inv.1, dictContains inv.2 "validated_application_data"))) =
      [("extraction", false), ("validation", false), ("eligibility", false)] := by
  exact ⟨rfl, rfl⟩


/-! ### Counterexample and witnesses for the reconciliation claims -/

def c9Application : Payload := [("name", PyVal.str "John Smith")]

def c9Extracted : ExtractedData := ⟨[], []⟩

/-- **C9 (counterexample).** With a single non-empty observation
(the application form declares `name = "John Smith"`, no document
yields anything), `resolved_data['name']` is the singleton
source-to-value map, not the observation's value itself. -/
theorem resolved_data_is_map_not_value :
    dictGet (runValidation c9Application c9Extracted).resolved_data "name" =
      some (PyVal.dict [("application_form", PyVal.str "John Smith")]) ∧
    (runValidation c9Application c9Extracted).conflicts = [] ∧
    PyVal.dict [("application_form", PyVal.str "John Smith")] ≠
      PyVal.str "John Smith" := by
  refine ⟨rfl, rfl, ?_⟩
  intro h
  cases h

/-- Witness for the amended C9 at the same concrete input. -/
theorem single_observation_keeps_map_witness :
    dictGet (runValidation c9Application c9Extracted).resolved_data "name" =
      some (PyVal.dict [("application_form", PyVal.str "John Smith")]) ∧
    (runValidation c9Application c9Extracted).conflicts.filter
      (fun c => c.field == "name") = [] := by
  have h : ("name", ["application_form", "government_id", "bank_statement"]) ∈
      fieldPriorities := by decide
  have hfv : collectFieldValues "name"
      ["application_form", "government_id", "bank_statement"]
      c9Application c9Extracted = [("application_form", PyVal.str "John Smith")] := rfl
  exact single_observation_keeps_map c9Application c9Extracted "name"
    ["application_form", "government_id", "bank_statement"]
    "application_form" (PyVal.str "John Smith") h hfv

def c5Application : Payload := [("name", PyVal.str "John Smith")]

def c5Extracted : ExtractedData := ⟨["government_id"], ["Name: Jane Roe"]⟩

/-- Witness for C5 at a concrete conflicting input. -/
theorem conflict_iff_distinct_normalized_witness :
    ((validateInformation c5Application c5Extracted).conflicts.filter
        (fun c => c.field == "name")).length =
      if 1 < uniqueNormalizedCount (collectFieldValues "name"
        ["application_form", "government_id", "bank_statement"]
        c5Application c5Extracted) then 1 else 0 := by
  have h : ("name", ["application_form", "government_id", "bank_statement"]) ∈
      fieldPriorities := by decide
  exact conflict_iff_distinct_normalized c5Application c5Extracted "name"
    ["application_form", "government_id", "bank_statement"] h

/-- Witness for C6: on the observed income conflict of spec scenario A,
the highest-priority source (`bank_statement`) wins. -/
theorem resolve_field_conflict_policy_witness :
    resolveFieldConflict "income"
      [("application_form", PyVal.int 5000), ("bank_statement", PyVal.num 4800)]
      ["bank_statement", "pay_stub", "tax_return", "application_form"] =
      PyVal.num 4800 := by
  refine (resolve_field_conflict_policy "income"
    [("application_form", PyVal.int 5000), ("bank_statement", PyVal.num 4800)]
    ["bank_statement", "pay_stub", "tax_return", "application_form"]).1
    [] "bank_statement" ["pay_stub", "tax_return", "application_form"]
    (PyVal.num 4800) rfl ?_ rfl rfl
  intro x hx
  cases hx

def c10Application : Payload := [("name", PyVal.str "John Smith")]

def c10Extracted : ExtractedData :=
  ⟨["government_id", "bank_statement"], ["Name: Jane Roe"]⟩

/-- Witness for C10: in the concrete name conflict, the two
document-source observations carry the same extracted value. -/
theorem conflict_doc_sources_agree_witness :
    (PyVal.str "Jane Roe" : PyVal) = PyVal.str "Jane Roe" := by
  have hc : (⟨"name",
      [("application_form", PyVal.str "John Smith"),
       ("government_id", PyVal.str "Jane Roe"),
       ("bank_statement", PyVal.str "Jane Roe")],
      ["application_form", "government_id", "bank_statement"]⟩ :
        Conflict) ∈ (validateInformation c10Application c10Extracted).conflicts :=
    List.Mem.head _
  exact conflict_doc_sources_agree c10Application c10Extracted _ hc
    "government_id" "bank_statement" (PyVal.str "Jane Roe") (PyVal.str "Jane Roe")
    (by decide) (by decide) rfl rfl
